import Mathlib

/-!
Verification development for the TeamUp backend (NestJS + TypeORM).

The database is modelled as explicit lists of entity rows; each service
method becomes a Lean function from the database state (and its arguments)
to `Except ServiceError (result × DB)`.  Throwing a NestJS HTTP exception
is modelled as returning `.error`; in the services every write happens
after all checks, so an error leaves the state untouched, which the model
makes explicit via `resultState`.  UUIDs generated by the database
(`PrimaryGeneratedColumn('uuid')`) are passed in as explicit `newId`
arguments; `CreateDateColumn` timestamps are passed as a `now` argument.
Dates are epoch milliseconds (`Date.getTime()`), so `Nat`.
-/

namespace TeamUp

/-- From `common/enums/project-role.enum.ts`:
`export enum ProjectRole { OWNER = 'Owner', MEMBER = 'Member', MENTOR = 'Mentor' }`. -/
inductive ProjectRole where
  | OWNER
  | MEMBER
  | MENTOR
deriving DecidableEq, Repr

/-- The string value of each `ProjectRole` enum member, as declared in the source. -/
def ProjectRole.value : ProjectRole → String
  | .OWNER => "Owner"
  | .MEMBER => "Member"
  | .MENTOR => "Mentor"

/-- From `common/enums/application-status.enum.ts`:
`PENDING = 'Pending', ACCEPTED = 'Accepted', DECLINED = 'Declined', INVITED = 'Invited'`. -/
inductive ApplicationStatus where
  | PENDING
  | ACCEPTED
  | DECLINED
  | INVITED
deriving DecidableEq, Repr

/-- The string value of each `ApplicationStatus` enum member. -/
def ApplicationStatus.value : ApplicationStatus → String
  | .PENDING => "Pending"
  | .ACCEPTED => "Accepted"
  | .DECLINED => "Declined"
  | .INVITED => "Invited"

/-- Entity `user.entity.ts` (the fields the verified services read). -/
structure User where
  id : String
  firstName : String
deriving DecidableEq, Repr

/-- Entity `project.entity.ts` (the fields the verified services read). -/
structure Project where
  id : String
  ownerId : String
  title : String
deriving DecidableEq, Repr

/-- Entity `project-membership.entity.ts`: `@Entity('project_memberships')` with
`@Index(['userId', 'projectId'], { unique: true })`. -/
structure ProjectMembership where
  id : String
  userId : String
  projectId : String
  role : ProjectRole
  joinedAt : Nat
deriving DecidableEq, Repr

/-- The columns of the unique index declared on `ProjectMembership`
(`@Index(['userId', 'projectId'], { unique: true })` — prevent duplicate memberships). -/
def projectMembershipUniqueIndex : List String := ["userId", "projectId"]

/-- Entity `milestone.entity.ts` row as the milestone service reads and writes it:
`id`, `projectId`, `title`, `date`, `active`, `createdAt`. -/
structure Milestone where
  id : String
  projectId : String
  title : String
  date : Nat
  active : Bool
  createdAt : Nat
deriving DecidableEq, Repr

/-- Entity `task.entity.ts` (the fields the verified services read). -/
structure Task where
  id : String
  milestoneId : String
  assigneeId : Option String
  name : String
  createdAt : Nat
deriving DecidableEq, Repr

/-- Entity `application.entity.ts`: `@Entity('applications')` with
`@Index(['applicantId', 'projectId'], { unique: true })`. -/
structure Application where
  id : String
  applicantId : String
  projectId : String
  status : ApplicationStatus
  roleAppliedFor : Option String
  createdAt : Nat
  updatedAt : Nat
deriving DecidableEq, Repr

/-- The columns of the unique index declared on `Application`
(`@Index(['applicantId', 'projectId'], { unique: true })` — user can only apply once per project). -/
def applicationUniqueIndex : List String := ["applicantId", "projectId"]

/-- Entity `bookmark.entity.ts`: `@Entity('user_project_bookmarks')` with
`@Index(['userId', 'projectId'], { unique: true })`. -/
structure Bookmark where
  id : String
  userId : String
  projectId : String
  createdAt : Nat
deriving DecidableEq, Repr

/-- The columns of the unique index declared on `Bookmark`
(`@Index(['userId', 'projectId'], { unique: true })` — prevent duplicate bookmarks). -/
def bookmarkUniqueIndex : List String := ["userId", "projectId"]

/-- The relational database state: one list of rows per entity table. -/
structure DB where
  users : List User
  projects : List Project
  memberships : List ProjectMembership
  milestones : List Milestone
  tasks : List Task
  applications : List Application
  bookmarks : List Bookmark
deriving DecidableEq, Repr

/-- NestJS HTTP exceptions thrown by the services. -/
inductive ServiceError where
  | notFound (msg : String)
  | forbidden (msg : String)
  | badRequest (msg : String)
  | conflict (msg : String)
  | internal (msg : String)
deriving DecidableEq, Repr

/-- The database state after a service call: the new state on success, the
original state when an exception was thrown (no write happens before a throw). -/
def resultState {α : Type} (db : DB) : Except ServiceError (α × DB) → DB
  | .ok (_, db') => db'
  | .error _ => db

/-- Insertion step of sorting by a numeric key (models both SQL
`order: { key: 'ASC' }` and the JS `Array.sort` comparator `a.key - b.key`). -/
def insertByKey {α : Type} (key : α → Nat) (a : α) : List α → List α
  | [] => [a]
  | b :: t => if key a ≤ key b then a :: b :: t else b :: insertByKey key a t

/-- Sort a list ascending by a numeric key. -/
def sortByKey {α : Type} (key : α → Nat) : List α → List α
  | [] => []
  | a :: t => insertByKey key a (sortByKey key t)

theorem mem_insertByKey {α : Type} (key : α → Nat) (a x : α) (l : List α) :
    x ∈ insertByKey key a l ↔ x = a ∨ x ∈ l := by
  induction l with
  | nil => simp [insertByKey]
  | cons b t ih =>
    by_cases h : key a ≤ key b
    · simp [insertByKey, h]
    · simp only [insertByKey, if_neg h, List.mem_cons, ih]
      tauto

theorem pairwise_insertByKey {α : Type} (key : α → Nat) (a : α) (l : List α)
    (h : l.Pairwise (fun x y => key x ≤ key y)) :
    (insertByKey key a l).Pairwise (fun x y => key x ≤ key y) := by
  induction l with
  | nil => simp [insertByKey]
  | cons b t ih =>
    rw [List.pairwise_cons] at h
    obtain ⟨hb, ht⟩ := h
    by_cases hle : key a ≤ key b
    · rw [insertByKey, if_pos hle]
      rw [List.pairwise_cons]
      refine ⟨?_, ?_⟩
      · intro x hx
        rcases List.mem_cons.mp hx with rfl | hxt
        · exact hle
        · exact le_trans hle (hb x hxt)
      · rw [List.pairwise_cons]
        exact ⟨hb, ht⟩
    · rw [insertByKey, if_neg hle]
      rw [List.pairwise_cons]
      refine ⟨?_, ih ht⟩
      intro x hx
      rcases (mem_insertByKey key a x t).mp hx with rfl | hxt
      · exact le_of_lt (lt_of_not_le hle)
      · exact hb x hxt

theorem pairwise_sortByKey {α : Type} (key : α → Nat) (l : List α) :
    (sortByKey key l).Pairwise (fun x y => key x ≤ key y) := by
  induction l with
  | nil => simp [sortByKey]
  | cons a t ih => exact pairwise_insertByKey key a _ ih

theorem insertByKey_perm {α : Type} (key : α → Nat) (a : α) (l : List α) :
    (insertByKey key a l).Perm (a :: l) := by
  induction l with
  | nil => simp [insertByKey]
  | cons b t ih =>
    by_cases h : key a ≤ key b
    · rw [insertByKey, if_pos h]
    · rw [insertByKey, if_neg h]
      exact (ih.cons b).trans (List.Perm.swap a b t)

theorem sortByKey_perm {α : Type} (key : α → Nat) (l : List α) :
    (sortByKey key l).Perm l := by
  induction l with
  | nil => simp [sortByKey]
  | cons a t ih => exact (insertByKey_perm key a _).trans (ih.cons a)

/-! Shared lookups. -/

/-- Method `UserService.findOne`: load a user by id, `NotFoundException` when absent. -/
def userFindOne (db : DB) (id : String) : Except ServiceError User :=
  match db.users.find? (fun u => u.id == id) with
  | none => .error (.notFound ("User with ID \"" ++ id ++ "\" not found"))
  | some u => .ok u

/-- Method `ProjectService.findOne`: load a project by id, `NotFoundException` when
absent (the milestone/task sorting it also performs is modelled separately by
`projectFindOneLoaded`, since it only reorders the loaded relation arrays). -/
def projectFindOne (db : DB) (id : String) : Except ServiceError Project :=
  match db.projects.find? (fun p => p.id == id) with
  | none => .error (.notFound ("Project with ID \"" ++ id ++ "\" not found"))
  | some p => .ok p

/-- The `memberships` relation of a project: the membership rows whose
`projectId` foreign key points at it. -/
def projectMemberships (db : DB) (projectId : String) : List ProjectMembership :=
  db.memberships.filter (fun m => m.projectId == projectId)

/-- A milestone together with its loaded `tasks` relation. -/
structure LoadedMilestone where
  milestone : Milestone
  tasks : List Task
deriving DecidableEq, Repr

/-- Method `ProjectService.findOne` with the default relations: loads the project,
its milestones and their tasks, sorts milestones by `date` ascending and each
milestone's tasks by `createdAt` ascending before returning. -/
def projectFindOneLoaded (db : DB) (id : String) :
    Except ServiceError (Project × List LoadedMilestone) :=
  match db.projects.find? (fun p => p.id == id) with
  | none => .error (.notFound ("Project with ID \"" ++ id ++ "\" not found"))
  | some p =>
    let ms := sortByKey (fun m => m.date) (db.milestones.filter (fun m => m.projectId == id))
    let loaded := ms.map (fun m =>
      { milestone := m
        tasks := sortByKey (fun t => t.createdAt)
          (db.tasks.filter (fun t => t.milestoneId == m.id)) })
    .ok (p, loaded)

/-! The MilestoneService operations. -/

/-- Method `MilestoneService.checkProjectPermission`: the user must be the project's
owner or one of its members, else `ForbiddenException`; a missing project
surfaces as the `NotFoundException` of `ProjectService.findOne`. -/
def checkProjectPermission (db : DB) (projectId userId : String) :
    Except ServiceError Unit := do
  let project ← projectFindOne db projectId
  let isOwner := project.ownerId == userId
  let isMember := (projectMemberships db projectId).any (fun m => m.userId == userId)
  if !isOwner && !isMember then
    .error (.forbidden "You do not have permission to manage milestones for this project.")
  else
    .ok ()

/-- Method `MilestoneService.findAllByProjectId`: permission check, then the
project's milestones ordered by `date` ascending (`order: { date: 'ASC' }`). -/
def findAllByProjectId (db : DB) (projectId userId : String) :
    Except ServiceError (List Milestone) := do
  let _ ← checkProjectPermission db projectId userId
  .ok (sortByKey (fun m => m.date) (db.milestones.filter (fun m => m.projectId == projectId)))

/-- The transaction's first statement:
`update(Milestone, { projectId, id: Not(milestoneId) }, { active: false })`. -/
def deactivateOthers (projectId milestoneId : String) (l : List Milestone) : List Milestone :=
  l.map (fun m =>
    if m.projectId == projectId && m.id != milestoneId then { m with active := false } else m)

/-- The transaction's second statement: `save(Milestone, targetMilestone)` —
an update of the row with the entity's primary key. -/
def saveById (activated : Milestone) (l : List Milestone) : List Milestone :=
  l.map (fun m => if m.id == activated.id then activated else m)

/-- Method `MilestoneService.activateMilestone`: permission check; find the target
milestone by `{ id, projectId }` (`NotFoundException` when absent); in one
transaction set `active := false` on every other milestone of the project
(`update` with `{ projectId, id: Not(milestoneId) }`) and save the target
with `active := true`. -/
def activateMilestone (db : DB) (milestoneId projectId userId : String) :
    Except ServiceError (Milestone × DB) := do
  let _ ← checkProjectPermission db projectId userId
  match db.milestones.find? (fun m => m.id == milestoneId && m.projectId == projectId) with
  | none =>
    .error (.notFound ("Milestone with ID \"" ++ milestoneId ++
      "\" not found in project \"" ++ projectId ++ "\"."))
  | some targetMilestone =>
    let activated := { targetMilestone with active := true }
    let milestones' := saveById activated (deactivateOthers projectId milestoneId db.milestones)
    .ok (activated, { db with milestones := milestones' })

/-! The ProjectService operations. -/

/-- Milestone input inside `CreateProjectDto`. Its `date` arrives as a string;
`new Date(input.date)` either yields a timestamp or is `NaN`, modelled as
`Option Nat`. -/
structure CreateMilestoneInput where
  title : String
  date : Option Nat
deriving DecidableEq, Repr

/-- Dto `CreateProjectDto` (the fields `createProject` reads). -/
structure CreateProjectDto where
  title : String
  milestones : Option (List CreateMilestoneInput)
deriving DecidableEq, Repr

/-- Dto `AddMemberDto`. -/
structure AddMemberDto where
  userId : String
  role : ProjectRole
deriving DecidableEq, Repr

/-- Dto `UpdateMemberRoleDto`. -/
structure UpdateMemberRoleDto where
  role : ProjectRole
deriving DecidableEq, Repr

/-- The milestone entities `createProject` builds from the dto inputs,
throwing `BadRequestException` at the first input whose date does not parse.
Generated row ids are derived from the (database-generated) project id and
the input position. -/
def buildMilestones (newProjectId : String) (now : Nat) :
    List CreateMilestoneInput → Nat → Except ServiceError (List Milestone)
  | [], _ => .ok []
  | input :: rest, i =>
    match input.date with
    | none => .error (.badRequest ("Invalid date format for milestone: " ++ input.title))
    | some d => do
      let tail ← buildMilestones newProjectId now rest (i + 1)
      .ok ({ id := newProjectId ++ "/milestone" ++ toString i, projectId := newProjectId,
             title := input.title, date := d, active := false, createdAt := now } :: tail)

/-- Method `ProjectService.createProject`: builds the project row, one membership
with `role: ProjectRole.OWNER` for the creating user, and the milestone rows
from the dto; the cascade save inserts all of them. -/
def createProject (db : DB) (createDto : CreateProjectDto) (owner : User)
    (newProjectId newMembershipId : String) (now : Nat) :
    Except ServiceError (Project × DB) := do
  let project : Project := { id := newProjectId, ownerId := owner.id, title := createDto.title }
  let ownerMembership : ProjectMembership :=
    { id := newMembershipId, userId := owner.id, projectId := newProjectId,
      role := ProjectRole.OWNER, joinedAt := now }
  let newMilestones ← match createDto.milestones with
    | some inputs => buildMilestones newProjectId now inputs 0
    | none => .ok []
  .ok (project,
    { db with
      projects := db.projects ++ [project]
      memberships := db.memberships ++ [ownerMembership]
      milestones := db.milestones ++ newMilestones })

/-- Method `ProjectService.addMember`: only the owner may add (`ForbiddenException`);
the user must exist (`NotFoundException`); a duplicate `(projectId, userId)`
membership is a `BadRequestException`; adding a second `OWNER` role is a
`BadRequestException`; otherwise one membership row is inserted. -/
def addMember (db : DB) (projectId : String) (addDto : AddMemberDto)
    (currentUserId : String) (newMembershipId : String) (now : Nat) :
    Except ServiceError (ProjectMembership × DB) := do
  let project ← projectFindOne db projectId
  if project.ownerId != currentUserId then
    .error (.forbidden "Only the project owner can add members.")
  else do
    let userToAdd ← userFindOne db addDto.userId
    match db.memberships.find? (fun m => m.projectId == projectId && m.userId == addDto.userId) with
    | some _ =>
      .error (.badRequest ("User " ++ userToAdd.firstName ++
        " is already a member of this project."))
    | none =>
      if addDto.role == ProjectRole.OWNER &&
          (projectMemberships db projectId).any (fun m => m.role == ProjectRole.OWNER) then
        .error (.badRequest "Project already has an owner. Assign a different role.")
      else
        let newMembership : ProjectMembership :=
          { id := newMembershipId, userId := addDto.userId, projectId := projectId,
            role := addDto.role, joinedAt := now }
        .ok (newMembership, { db with memberships := db.memberships ++ [newMembership] })

/-- Method `ProjectService.updateMemberRole`: only the owner may update roles
(`ForbiddenException`); the membership must exist (`NotFoundException`);
demoting the project owner's `OWNER` membership when no other `OWNER`
membership exists is a `BadRequestException`; promoting a non-`OWNER`
membership to `OWNER` is a `BadRequestException`; otherwise the membership
row's role is updated in place. -/
def updateMemberRole (db : DB) (projectId memberUserId : String)
    (updateDto : UpdateMemberRoleDto) (currentUserId : String) :
    Except ServiceError (ProjectMembership × DB) := do
  let project ← projectFindOne db projectId
  if project.ownerId != currentUserId then
    .error (.forbidden "Only the project owner can update member roles.")
  else
    match db.memberships.find? (fun m => m.projectId == projectId && m.userId == memberUserId) with
    | none =>
      .error (.notFound ("Membership not found for user " ++ memberUserId ++
        " in project " ++ projectId ++ "."))
    | some membership =>
      let otherOwners := (projectMemberships db projectId).filter
        (fun m => m.role == ProjectRole.OWNER && m.userId != membership.userId)
      if membership.userId == project.ownerId && membership.role == ProjectRole.OWNER &&
          updateDto.role != ProjectRole.OWNER && otherOwners.length == 0 then
        .error (.badRequest "Cannot change the role of the only owner.")
      else if updateDto.role == ProjectRole.OWNER && membership.role != ProjectRole.OWNER then
        .error (.badRequest "Cannot assign OWNER role to another member.")
      else
        let updated := { membership with role := updateDto.role }
        .ok (updated,
          { db with memberships :=
              db.memberships.map (fun m => if m.id == membership.id then updated else m) })

/-- Method `ProjectService.removeMember`: the requester must be the owner or the
member themselves (`ForbiddenException`); the membership must exist
(`NotFoundException`); a member removing themselves while holding the only
`OWNER` membership is a `BadRequestException`; the owner removing themselves
as the project's only member is a `BadRequestException`; otherwise the
membership row is deleted by id. -/
def removeMember (db : DB) (projectId memberUserId currentUserId : String) :
    Except ServiceError (Unit × DB) := do
  let project ← projectFindOne db projectId
  let isOwnerRequesting := project.ownerId == currentUserId
  let isRemovingSelf := memberUserId == currentUserId
  if !isOwnerRequesting && !isRemovingSelf then
    .error (.forbidden "You do not have permission to remove this member.")
  else
    match db.memberships.find? (fun m => m.projectId == projectId && m.userId == memberUserId) with
    | none =>
      .error (.notFound ("Membership not found for user " ++ memberUserId ++
        " in project " ++ projectId ++ "."))
    | some membership =>
      let otherOwners := (projectMemberships db projectId).filter
        (fun m => m.role == ProjectRole.OWNER && m.userId != memberUserId)
      if isRemovingSelf && membership.role == ProjectRole.OWNER && otherOwners.length == 0 then
        .error (.badRequest
          "Cannot remove the only owner from the project. Delete the project instead or assign a new owner.")
      else if isOwnerRequesting && isRemovingSelf &&
          (projectMemberships db projectId).length == 1 then
        .error (.badRequest "Cannot remove the only member (owner). Delete the project instead.")
      else
        .ok ((), { db with memberships := db.memberships.filter (fun m => m.id != membership.id) })

/-! The ApplicationService operations. -/

/-- Dto `CreateApplicationDto` (the fields `create` copies into the entity). -/
structure CreateApplicationDto where
  roleAppliedFor : Option String
deriving DecidableEq, Repr

/-- Dto `UpdateApplicationStatusDto`: class-validator restricts `status` to
`ACCEPTED` or `DECLINED` (`@IsEnum([ApplicationStatus.ACCEPTED, ApplicationStatus.DECLINED])`). -/
structure UpdateApplicationStatusDto where
  status : ApplicationStatus
deriving DecidableEq, Repr

/-- Method `ApplicationService.create`: the project must exist; an applicant who is
the project's owner or already a member gets `BadRequestException`; an
existing application for the same `(projectId, applicantId)` pair gets
`ConflictException`; otherwise one application row with
`status: ApplicationStatus.PENDING` is inserted. -/
def applicationCreate (db : DB) (projectId : String) (applicant : User)
    (createDto : CreateApplicationDto) (newApplicationId : String) (now : Nat) :
    Except ServiceError (Application × DB) := do
  let project ← projectFindOne db projectId
  if project.ownerId == applicant.id ||
      (projectMemberships db projectId).any (fun m => m.userId == applicant.id) then
    .error (.badRequest "You are already a member or the owner of this project.")
  else
    match db.applications.find? (fun a => a.projectId == projectId && a.applicantId == applicant.id) with
    | some _ => .error (.conflict "You have already applied to this project.")
    | none =>
      let application : Application :=
        { id := newApplicationId, applicantId := applicant.id, projectId := projectId,
          status := ApplicationStatus.PENDING, roleAppliedFor := createDto.roleAppliedFor,
          createdAt := now, updatedAt := now }
      .ok (application, { db with applications := db.applications ++ [application] })

/-- Method `ApplicationService.findOne`: load the application with its `project`
relation (`NotFoundException` when absent; the non-nullable foreign key makes
a missing project row an internal error), then allow only the applicant or
the project owner to view (`ForbiddenException`). -/
def applicationFindOne (db : DB) (applicationId currentUserId : String) :
    Except ServiceError (Application × Project) :=
  match db.applications.find? (fun a => a.id == applicationId) with
  | none =>
    .error (.notFound ("Application with ID \"" ++ applicationId ++ "\" not found."))
  | some application =>
    match db.projects.find? (fun p => p.id == application.projectId) with
    | none => .error (.internal "Application project relation missing.")
    | some project =>
      if application.applicantId != currentUserId && project.ownerId != currentUserId then
        .error (.forbidden "You do not have permission to view this application.")
      else
        .ok (application, project)

/-- Method `ApplicationService.updateStatus`: `findOne` (view permission), then only
the project owner may decide (`ForbiddenException`); a non-`PENDING`
application gets `BadRequestException`; on `ACCEPTED`, when no membership for
the applicant exists yet, one with `role: ProjectRole.MEMBER` is inserted;
finally the application row is saved with the new status. -/
def updateStatus (db : DB) (applicationId : String) (updateDto : UpdateApplicationStatusDto)
    (currentUserId : String) (newMembershipId : String) (now : Nat) :
    Except ServiceError (Application × DB) := do
  let (application, project) ← applicationFindOne db applicationId currentUserId
  if project.ownerId != currentUserId then
    .error (.forbidden "Only the project owner can accept or decline applications.")
  else if application.status != ApplicationStatus.PENDING then
    .error (.badRequest ("Application has already been " ++
      (application.status.value.toLower) ++ "."))
  else
    let updated := { application with status := updateDto.status, updatedAt := now }
    let db1 :=
      if updateDto.status == ApplicationStatus.ACCEPTED then
        match db.memberships.find? (fun m =>
            m.projectId == application.projectId && m.userId == application.applicantId) with
        | some _ => db
        | none =>
          { db with memberships := db.memberships ++
              [{ id := newMembershipId, userId := application.applicantId,
                 projectId := application.projectId, role := ProjectRole.MEMBER,
                 joinedAt := now }] }
      else db
    .ok (updated,
      { db1 with applications :=
          db1.applications.map (fun a => if a.id == application.id then updated else a) })

/-! The BookmarkService operations. -/

/-- Method `BookmarkService.addBookmark`: the project must exist
(`ProjectService.findOne` throws `NotFoundException`); when a bookmark for
`(projectId, userId)` already exists it is returned unchanged ("silently
return existing bookmark"); otherwise one bookmark row is inserted. -/
def addBookmark (db : DB) (projectId : String) (user : User)
    (newBookmarkId : String) (now : Nat) : Except ServiceError (Bookmark × DB) := do
  let _ ← projectFindOne db projectId
  match db.bookmarks.find? (fun b => b.projectId == projectId && b.userId == user.id) with
  | some existingBookmark => .ok (existingBookmark, db)
  | none =>
    let bookmark : Bookmark :=
      { id := newBookmarkId, userId := user.id, projectId := projectId, createdAt := now }
    .ok (bookmark, { db with bookmarks := db.bookmarks ++ [bookmark] })

/-- Method `BookmarkService.removeBookmark`: delete by `{ projectId, userId }`;
`affected === 0` — no row matched — is `NotFoundException`. -/
def removeBookmark (db : DB) (projectId : String) (user : User) :
    Except ServiceError (Unit × DB) :=
  if (db.bookmarks.filter (fun b => b.projectId == projectId && b.userId == user.id)).length == 0 then
    .error (.notFound "Bookmark not found for this project.")
  else
    .ok ((), { db with bookmarks := db.bookmarks.filter (fun b => !(b.projectId == projectId && b.userId == user.id)) })

/-! Invariants backed by the unique indexes. -/

/-- At most one `ProjectMembership` row per `(userId, projectId)` pair — the
constraint the unique index `projectMembershipUniqueIndex` enforces. -/
def membershipsUnique (l : List ProjectMembership) : Prop :=
  l.Pairwise (fun a b => ¬(a.userId = b.userId ∧ a.projectId = b.projectId))

/-- At most one `Application` row per `(applicantId, projectId)` pair — the
constraint the unique index `applicationUniqueIndex` enforces. -/
def applicationsUnique (l : List Application) : Prop :=
  l.Pairwise (fun a b => ¬(a.applicantId = b.applicantId ∧ a.projectId = b.projectId))

/-- At most one `Bookmark` row per `(userId, projectId)` pair — the
constraint the unique index `bookmarkUniqueIndex` enforces. -/
def bookmarksUnique (l : List Bookmark) : Prop :=
  l.Pairwise (fun a b => ¬(a.userId = b.userId ∧ a.projectId = b.projectId))

/-- Number of `OWNER` memberships a project has. -/
def ownerCount (memberships : List ProjectMembership) (pid : String) : Nat :=
  (memberships.filter (fun m => m.projectId == pid && m.role == ProjectRole.OWNER)).length

/-- One-owner-per-project: every project has at most one `OWNER` membership. -/
def oneOwnerInvariant (db : DB) : Prop :=
  ∀ pid : String, ownerCount db.memberships pid ≤ 1

/-! Concrete sample data for evaluating the theorems on closed inputs. -/

/-- A small concrete database: owner `u1` with project `p1`, a second user
`u2`, two milestones (the active one is `ms2`) and two tasks, both stored out
of chronological order. -/
def sampleDB : DB where
  users := [{ id := "u1", firstName := "Ada" }, { id := "u2", firstName := "Bob" }]
  projects := [{ id := "p1", ownerId := "u1", title := "T" }]
  memberships := [{ id := "mb1", userId := "u1", projectId := "p1", role := ProjectRole.OWNER, joinedAt := 0 }]
  milestones := [{ id := "ms1", projectId := "p1", title := "A", date := 9, active := false, createdAt := 1 }, { id := "ms2", projectId := "p1", title := "B", date := 5, active := true, createdAt := 0 }]
  tasks := [{ id := "t1", milestoneId := "ms1", assigneeId := none, name := "x", createdAt := 7 }, { id := "t2", milestoneId := "ms1", assigneeId := some "u1", name := "y", createdAt := 3 }]
  applications := []
  bookmarks := []

/-- State `sampleDB` after `activateMilestone "ms1"`: `ms1` active, `ms2` not. -/
def sampleDBActivated : DB where
  users := [{ id := "u1", firstName := "Ada" }, { id := "u2", firstName := "Bob" }]
  projects := [{ id := "p1", ownerId := "u1", title := "T" }]
  memberships := [{ id := "mb1", userId := "u1", projectId := "p1", role := ProjectRole.OWNER, joinedAt := 0 }]
  milestones := [{ id := "ms1", projectId := "p1", title := "A", date := 9, active := true, createdAt := 1 }, { id := "ms2", projectId := "p1", title := "B", date := 5, active := false, createdAt := 0 }]
  tasks := [{ id := "t1", milestoneId := "ms1", assigneeId := none, name := "x", createdAt := 7 }, { id := "t2", milestoneId := "ms1", assigneeId := some "u1", name := "y", createdAt := 3 }]
  applications := []
  bookmarks := []

/-- The milestone `ms1` of `sampleDB` with `active := true`. -/
def sampleMs1Activated : Milestone :=
  { id := "ms1", projectId := "p1", title := "A", date := 9, active := true, createdAt := 1 }

/-- User `u1` of `sampleDB`. -/
def sampleU1 : User := { id := "u1", firstName := "Ada" }

/-- User `u2` of `sampleDB`. -/
def sampleU2 : User := { id := "u2", firstName := "Bob" }

/-- Project `p1` of `sampleDB`. -/
def sampleP1 : Project := { id := "p1", ownerId := "u1", title := "T" }

/-- A bookmark of project `p1` by user `u2`. -/
def sampleBookmark : Bookmark := { id := "bk1", userId := "u2", projectId := "p1", createdAt := 2 }

/-- State `sampleDB` with `sampleBookmark` stored. -/
def sampleDBBm : DB := { sampleDB with bookmarks := [sampleBookmark] }

/-- A `PENDING` application by `u2` to `p1`. -/
def samplePendingApp : Application := { id := "a1", applicantId := "u2", projectId := "p1", status := ApplicationStatus.PENDING, roleAppliedFor := none, createdAt := 3, updatedAt := 3 }

/-- A `DECLINED` application by `u2` to `p1`. -/
def sampleDecidedApp : Application := { id := "a1", applicantId := "u2", projectId := "p1", status := ApplicationStatus.DECLINED, roleAppliedFor := none, createdAt := 3, updatedAt := 4 }

/-- State `sampleDB` with the pending application stored. -/
def sampleDBAppPending : DB := { sampleDB with applications := [samplePendingApp] }

/-- State `sampleDB` with the declined application stored. -/
def sampleDBAppDecided : DB := { sampleDB with applications := [sampleDecidedApp] }

/-- A second `OWNER` membership (user `u2`) on project `p1`. -/
def sampleMb2Owner : ProjectMembership := { id := "mb2", userId := "u2", projectId := "p1", role := ProjectRole.OWNER, joinedAt := 1 }

/-- A `MEMBER` membership (user `u2`) on project `p1`. -/
def sampleMb2Member : ProjectMembership := { id := "mb2", userId := "u2", projectId := "p1", role := ProjectRole.MEMBER, joinedAt := 1 }

/-- State `sampleDB` with two `OWNER` memberships on `p1` (`u1` and `u2`). -/
def sampleDBTwoOwners : DB := { sampleDB with memberships := [{ id := "mb1", userId := "u1", projectId := "p1", role := ProjectRole.OWNER, joinedAt := 0 }, sampleMb2Owner] }

/-- State `sampleDB` with an extra `MEMBER` membership of `u2` on `p1`. -/
def sampleDBTwoMembers : DB := { sampleDB with memberships := [{ id := "mb1", userId := "u1", projectId := "p1", role := ProjectRole.OWNER, joinedAt := 0 }, sampleMb2Member] }

/-! Theorems settling the claims. -/

/-- C7: every project membership's role is one of exactly three values —
the `ProjectRole` enumeration has only `OWNER` ('Owner'), `MEMBER` ('Member')
and `MENTOR` ('Mentor'), and the typed `role` field of every
`ProjectMembership` holds one of them, so no operation can store a role
outside this set. -/
theorem projectRole_exactly_three :
    (∀ r : ProjectRole,
      r = ProjectRole.OWNER ∨ r = ProjectRole.MEMBER ∨ r = ProjectRole.MENTOR) ∧
    ProjectRole.OWNER.value = "Owner" ∧
    ProjectRole.MEMBER.value = "Member" ∧
    ProjectRole.MENTOR.value = "Mentor" ∧
    (∀ m : ProjectMembership,
      m.role = ProjectRole.OWNER ∨ m.role = ProjectRole.MEMBER ∨ m.role = ProjectRole.MENTOR) := by
  refine ⟨?_, rfl, rfl, rfl, ?_⟩
  · intro r
    cases r
    · exact Or.inl rfl
    · exact Or.inr (Or.inl rfl)
    · exact Or.inr (Or.inr rfl)
  · intro m
    cases h : m.role
    · exact Or.inl rfl
    · exact Or.inr (Or.inl rfl)
    · exact Or.inr (Or.inr rfl)

theorem deactivateOthers_map_id (pid mid : String) (l : List Milestone) :
    (deactivateOthers pid mid l).map Milestone.id = l.map Milestone.id := by
  unfold deactivateOthers
  rw [List.map_map]
  apply List.map_congr_left
  intro x _
  by_cases h : x.projectId == pid && x.id != mid <;> simp [h, Function.comp]

theorem saveById_map_id (act : Milestone) (l : List Milestone) :
    (saveById act l).map Milestone.id = l.map Milestone.id := by
  unfold saveById
  rw [List.map_map]
  apply List.map_congr_left
  intro x _
  by_cases h : x.id == act.id
  · simp only [Function.comp_apply, if_pos h]
    exact (eq_of_beq h).symm
  · simp only [Function.comp_apply, if_neg h]

theorem act_mem_saveById (act : Milestone) (l : List Milestone) (x : Milestone)
    (hx : x ∈ l) (hid : x.id = act.id) : act ∈ saveById act l := by
  unfold saveById
  exact List.mem_map.mpr ⟨x, hx, by simp [hid]⟩

theorem mem_deactivateOthers (pid mid : String) (l : List Milestone) (x : Milestone)
    (hx : x ∈ l) :
    (if x.projectId == pid && x.id != mid then { x with active := false } else x) ∈
      deactivateOthers pid mid l := by
  unfold deactivateOthers
  exact List.mem_map.mpr ⟨x, hx, rfl⟩

theorem saveById_deactivateOthers_others (pid mid : String) (act : Milestone)
    (l : List Milestone) (hactid : act.id = mid) :
    ∀ m' ∈ saveById act (deactivateOthers pid mid l),
      m'.projectId = pid → m'.id ≠ mid → m'.active = false := by
  intro m' hm' hpid hid
  unfold saveById deactivateOthers at hm'
  rw [List.map_map] at hm'
  obtain ⟨x, hx, hgx⟩ := List.mem_map.mp hm'
  simp only [Function.comp_apply] at hgx
  by_cases hc : x.projectId == pid && x.id != mid
  · rw [if_pos hc] at hgx
    by_cases hc2 : ({ x with active := false } : Milestone).id == act.id
    · rw [if_pos hc2] at hgx
      exact absurd (hgx ▸ hactid) hid
    · rw [if_neg hc2] at hgx
      rw [← hgx]
  · rw [if_neg hc] at hgx
    by_cases hc2 : x.id == act.id
    · rw [if_pos hc2] at hgx
      exact absurd (hgx ▸ hactid) hid
    · rw [if_neg hc2] at hgx
      exfalso
      apply hc
      rw [hgx]
      simp [hpid, hid]

/-- C1: when `activateMilestone` succeeds, the returned milestone is the
target with `active = true`, it is stored in the new state, every other
milestone of the same project has `active = false`, and hence (row ids being
primary keys) at most one milestone of the project is active afterwards. -/
theorem activateMilestone_activates_one_deactivates_others
    (db : DB) (mid pid uid : String) (m : Milestone) (db' : DB)
    (hids : (db.milestones.map Milestone.id).Nodup)
    (h : activateMilestone db mid pid uid = .ok (m, db')) :
    m.active = true ∧ m.id = mid ∧ m.projectId = pid ∧ m ∈ db'.milestones ∧
    (∀ m' ∈ db'.milestones, m'.projectId = pid → m'.id ≠ mid → m'.active = false) ∧
    (∀ a ∈ db'.milestones, ∀ b ∈ db'.milestones,
      a.projectId = pid → b.projectId = pid →
      a.active = true → b.active = true → a = b) := by
  unfold activateMilestone at h
  cases hperm : checkProjectPermission db pid uid with
  | error e => rw [hperm] at h; exact absurd h (by simp [Bind.bind, Except.bind])
  | ok u =>
    rw [hperm] at h
    simp only [Bind.bind, Except.bind] at h
    cases hfind : db.milestones.find? (fun x => x.id == mid && x.projectId == pid) with
    | none => rw [hfind] at h; exact absurd h (by simp)
    | some target =>
      rw [hfind] at h
      simp only [Except.ok.injEq, Prod.mk.injEq] at h
      obtain ⟨hm, hdb⟩ := h
      have htmem : target ∈ db.milestones := List.mem_of_find?_eq_some hfind
      have htprop : target.id = mid ∧ target.projectId = pid := by
        have := List.find?_some hfind
        simpa using this
      obtain ⟨htid, htpid⟩ := htprop
      have hmact : m = { target with active := true } := hm.symm
      have hactid : ({ target with active := true } : Milestone).id = mid := htid
      have hmils : db'.milestones =
          saveById { target with active := true } (deactivateOthers pid mid db.milestones) := by
        rw [← hdb]
      have hids' : db'.milestones.map Milestone.id = db.milestones.map Milestone.id := by
        rw [hmils, saveById_map_id, deactivateOthers_map_id]
      have hmem : m ∈ db'.milestones := by
        rw [hmils, hmact]
        have himg := mem_deactivateOthers pid mid db.milestones target htmem
        by_cases hc : target.projectId == pid && target.id != mid
        · rw [if_pos hc] at himg
          exact act_mem_saveById _ _ _ himg rfl
        · rw [if_neg hc] at himg
          exact act_mem_saveById _ _ _ himg rfl
      have hothers : ∀ m' ∈ db'.milestones, m'.projectId = pid → m'.id ≠ mid →
          m'.active = false := by
        rw [hmils]
        exact saveById_deactivateOthers_others pid mid _ db.milestones hactid
      refine ⟨by rw [hmact], by rw [hmact]; exact htid, by rw [hmact]; exact htpid,
        hmem, hothers, ?_⟩
      intro a ha b hb hapid hbpid haact hbact
      have haid : a.id = mid := by
        by_contra hne
        exact absurd (hothers a ha hapid hne) (by simp [haact])
      have hbid : b.id = mid := by
        by_contra hne
        exact absurd (hothers b hb hbpid hne) (by simp [hbact])
      have hnodup : (db'.milestones.map Milestone.id).Nodup := by
        rw [hids']
        exact hids
      exact List.inj_on_of_nodup_map hnodup ha hb (by rw [haid, hbid])

/-- Witness for C1: on `sampleDB`, activating `ms1` succeeds, the returned
milestone is active and stored, and every other milestone of `p1` is
inactive. -/
theorem activateMilestone_activates_one_deactivates_others_witness :
    ∃ m db', activateMilestone sampleDB "ms1" "p1" "u1" = Except.ok (m, db') ∧
      m.active = true ∧ m ∈ db'.milestones ∧
      ∀ m' ∈ db'.milestones, m'.projectId = "p1" → m'.id ≠ "ms1" → m'.active = false := by
  have h : activateMilestone sampleDB "ms1" "p1" "u1" =
      Except.ok (sampleMs1Activated, sampleDBActivated) := by rfl
  have hmain := activateMilestone_activates_one_deactivates_others sampleDB "ms1" "p1" "u1"
    sampleMs1Activated sampleDBActivated (by decide) h
  exact ⟨_, _, h, hmain.1, hmain.2.2.2.1, hmain.2.2.2.2.1⟩

/-- C10: `MilestoneService.findAllByProjectId` returns the project's
milestones sorted by `date` ascending, and `ProjectService.findOne` (with
loaded relations) returns the milestones sorted by `date` ascending with
each milestone's tasks sorted by `createdAt` ascending. -/
theorem milestones_returned_in_chronological_order
    (db : DB) (pid uid : String) (ms : List Milestone) (p : Project)
    (loaded : List LoadedMilestone)
    (h1 : findAllByProjectId db pid uid = .ok ms)
    (h2 : projectFindOneLoaded db pid = .ok (p, loaded)) :
    ms.Pairwise (fun a b => a.date ≤ b.date) ∧
    (∀ m ∈ ms, m.projectId = pid) ∧
    loaded.Pairwise (fun a b => a.milestone.date ≤ b.milestone.date) ∧
    (∀ v ∈ loaded, v.tasks.Pairwise (fun a b => a.createdAt ≤ b.createdAt)) := by
  have hms : ms = sortByKey (fun m => m.date)
      (db.milestones.filter (fun m => m.projectId == pid)) := by
    unfold findAllByProjectId at h1
    cases hperm : checkProjectPermission db pid uid with
    | error e => rw [hperm] at h1; exact absurd h1 (by simp [Bind.bind, Except.bind])
    | ok u =>
      rw [hperm] at h1
      simp only [Bind.bind, Except.bind, Except.ok.injEq] at h1
      exact h1.symm
  have hload : loaded = (sortByKey (fun m => m.date)
      (db.milestones.filter (fun m => m.projectId == pid))).map (fun m =>
        { milestone := m
          tasks := sortByKey (fun t => t.createdAt)
            (db.tasks.filter (fun t => t.milestoneId == m.id)) }) := by
    unfold projectFindOneLoaded at h2
    cases hfind : db.projects.find? (fun q => q.id == pid) with
    | none => rw [hfind] at h2; exact absurd h2 (by simp)
    | some q =>
      rw [hfind] at h2
      simp only [Except.ok.injEq, Prod.mk.injEq] at h2
      exact h2.2.symm
  refine ⟨?_, ?_, ?_, ?_⟩
  · rw [hms]
    exact pairwise_sortByKey (fun m : Milestone => m.date) _
  · intro m hm
    rw [hms] at hm
    have hm' := (sortByKey_perm (fun m : Milestone => m.date) _).mem_iff.mp hm
    have := List.mem_filter.mp hm'
    simpa using this.2
  · rw [hload]
    rw [List.pairwise_map]
    exact pairwise_sortByKey (fun m : Milestone => m.date) _
  · intro v hv
    rw [hload] at hv
    obtain ⟨m, _, hvm⟩ := List.mem_map.mp hv
    rw [← hvm]
    exact pairwise_sortByKey (fun t : Task => t.createdAt) _

/-- Witness for C10: on `sampleDB` (whose milestones and tasks are stored out
of order) both reads succeed and return chronologically sorted lists. -/
theorem milestones_returned_in_chronological_order_witness :
    ∃ ms p loaded,
      findAllByProjectId sampleDB "p1" "u1" = .ok ms ∧
      projectFindOneLoaded sampleDB "p1" = .ok (p, loaded) ∧
      ms.Pairwise (fun a b => a.date ≤ b.date) ∧
      loaded.Pairwise (fun a b => a.milestone.date ≤ b.milestone.date) ∧
      ∀ v ∈ loaded, v.tasks.Pairwise (fun a b => a.createdAt ≤ b.createdAt) := by
  have h1 : findAllByProjectId sampleDB "p1" "u1" = .ok
      [{ id := "ms2", projectId := "p1", title := "B", date := 5, active := true, createdAt := 0 },
       { id := "ms1", projectId := "p1", title := "A", date := 9, active := false, createdAt := 1 }] := by
    rfl
  have h2 : projectFindOneLoaded sampleDB "p1" = .ok
      ({ id := "p1", ownerId := "u1", title := "T" },
       [{ milestone := { id := "ms2", projectId := "p1", title := "B", date := 5, active := true, createdAt := 0 },
          tasks := [] },
        { milestone := { id := "ms1", projectId := "p1", title := "A", date := 9, active := false, createdAt := 1 },
          tasks := [{ id := "t2", milestoneId := "ms1", assigneeId := some "u1", name := "y", createdAt := 3 },
                    { id := "t1", milestoneId := "ms1", assigneeId := none, name := "x", createdAt := 7 }] }]) := by
    rfl
  have hmain := milestones_returned_in_chronological_order sampleDB "p1" "u1" _ _ _ h1 h2
  exact ⟨_, _, _, h1, h2, hmain.1, hmain.2.2.1, hmain.2.2.2⟩

/-- C6: at most one bookmark per user and project — `addBookmark` returns an
already-existing bookmark unchanged instead of creating another one and
preserves pair-uniqueness of the bookmark table, `removeBookmark` raises
`NotFoundException` exactly when no bookmark exists for the pair, and the
`(userId, projectId)` unique index backs the constraint. -/
theorem bookmark_unique_per_user_and_project
    (db : DB) (pid : String) (u : User) (newId : String) (now : Nat) :
    (∀ b0 p0, db.projects.find? (fun q => q.id == pid) = some p0 →
      db.bookmarks.find? (fun b => b.projectId == pid && b.userId == u.id) = some b0 →
      addBookmark db pid u newId now = .ok (b0, db)) ∧
    (bookmarksUnique db.bookmarks →
      ∀ r db', addBookmark db pid u newId now = .ok (r, db') →
        bookmarksUnique db'.bookmarks) ∧
    ((∃ msg, removeBookmark db pid u = .error (.notFound msg)) ↔
      ∀ b ∈ db.bookmarks, ¬(b.projectId = pid ∧ b.userId = u.id)) ∧
    bookmarkUniqueIndex = ["userId", "projectId"] := by
  refine ⟨?_, ?_, ?_, rfl⟩
  · intro b0 p0 hp hb
    unfold addBookmark projectFindOne
    rw [hp]
    simp only [Bind.bind, Except.bind]
    rw [hb]
  · intro huniq r db' h
    unfold addBookmark projectFindOne at h
    cases hp : db.projects.find? (fun q => q.id == pid) with
    | none => rw [hp] at h; exact absurd h (by simp [Bind.bind, Except.bind])
    | some p0 =>
      rw [hp] at h
      simp only [Bind.bind, Except.bind] at h
      cases hb : db.bookmarks.find? (fun b => b.projectId == pid && b.userId == u.id) with
      | some b0 =>
        rw [hb] at h
        simp only [Except.ok.injEq, Prod.mk.injEq] at h
        rw [← h.2]
        exact huniq
      | none =>
        rw [hb] at h
        simp only [Except.ok.injEq, Prod.mk.injEq] at h
        rw [← h.2]
        unfold bookmarksUnique at huniq ⊢
        rw [List.pairwise_append]
        refine ⟨huniq, by simp, ?_⟩
        intro a ha b hbmem
        have hnone := List.find?_eq_none.mp hb a ha
        simp only [List.mem_singleton] at hbmem
        subst hbmem
        intro hcontra
        apply hnone
        simp only [Bool.and_eq_true, beq_iff_eq]
        exact ⟨hcontra.2, hcontra.1⟩
  · unfold removeBookmark
    by_cases hz : (db.bookmarks.filter
        (fun b => b.projectId == pid && b.userId == u.id)).length = 0
    · have hfil : db.bookmarks.filter (fun b => b.projectId == pid && b.userId == u.id) = [] :=
        List.length_eq_zero.mp hz
      have hforall := List.filter_eq_nil_iff.mp hfil
      constructor
      · intro _ b hbmem hcontra
        exact hforall b hbmem (by simp [hcontra.1, hcontra.2])
      · intro _
        exact ⟨_, by rw [if_pos (by simpa using hz)]⟩
    · constructor
      · rintro ⟨msg, hmsg⟩
        rw [if_neg (by simpa using hz)] at hmsg
        exact absurd hmsg (by simp)
      · intro hall
        exfalso
        apply hz
        rw [List.length_eq_zero, List.filter_eq_nil_iff]
        intro b hb
        simp only [Bool.and_eq_true, beq_iff_eq, not_and]
        intro h1 h2
        exact hall b hb ⟨h1, h2⟩

/-- Witness for C6: on `sampleDBBm`, `u2` bookmarking `p1` again returns the
existing bookmark with the state unchanged, and removing the non-existent
bookmark of `u1` is a `NotFoundException`. -/
theorem bookmark_unique_per_user_and_project_witness :
    addBookmark sampleDBBm "p1" sampleU2 "bknew" 5 = .ok (sampleBookmark, sampleDBBm) ∧
    (∃ msg, removeBookmark sampleDBBm "p1" sampleU1 = .error (.notFound msg)) := by
  have h := bookmark_unique_per_user_and_project sampleDBBm "p1" sampleU2 "bknew" 5
  have h' := bookmark_unique_per_user_and_project sampleDBBm "p1" sampleU1 "bknew" 5
  exact ⟨h.1 sampleBookmark sampleP1 rfl rfl, h'.2.2.1.mpr (by decide)⟩

/-- C8: a user applies at most once and only as an outsider —
`ApplicationService.create` raises `BadRequestException` when the applicant
owns the project or is a member, `ConflictException` when an application for
the pair already exists, and otherwise inserts exactly one new `PENDING`
application; pair-uniqueness of the applications table is preserved and the
`(applicantId, projectId)` unique index backs it. -/
theorem application_create_once_and_outsider_only
    (db : DB) (pid : String) (applicant : User) (dto : CreateApplicationDto)
    (newId : String) (now : Nat) (project : Project)
    (hproj : db.projects.find? (fun p => p.id == pid) = some project) :
    ((project.ownerId = applicant.id ∨
        ∃ mb ∈ projectMemberships db pid, mb.userId = applicant.id) →
      ∃ msg, applicationCreate db pid applicant dto newId now = .error (.badRequest msg)) ∧
    (project.ownerId ≠ applicant.id →
      (∀ mb ∈ projectMemberships db pid, mb.userId ≠ applicant.id) →
      (∃ a0 ∈ db.applications, a0.projectId = pid ∧ a0.applicantId = applicant.id) →
      ∃ msg, applicationCreate db pid applicant dto newId now = .error (.conflict msg)) ∧
    (project.ownerId ≠ applicant.id →
      (∀ mb ∈ projectMemberships db pid, mb.userId ≠ applicant.id) →
      (∀ a0 ∈ db.applications, ¬(a0.projectId = pid ∧ a0.applicantId = applicant.id)) →
      ∃ app db', applicationCreate db pid applicant dto newId now = .ok (app, db') ∧
        app.status = ApplicationStatus.PENDING ∧ app.applicantId = applicant.id ∧
        app.projectId = pid ∧ db'.applications = db.applications ++ [app]) ∧
    (applicationsUnique db.applications →
      ∀ app db', applicationCreate db pid applicant dto newId now = .ok (app, db') →
        applicationsUnique db'.applications) ∧
    applicationUniqueIndex = ["applicantId", "projectId"] := by
  have hbody : applicationCreate db pid applicant dto newId now =
      (if project.ownerId == applicant.id ||
          (projectMemberships db pid).any (fun m => m.userId == applicant.id) then
        .error (.badRequest "You are already a member or the owner of this project.")
      else
        match db.applications.find?
            (fun a => a.projectId == pid && a.applicantId == applicant.id) with
        | some _ => .error (.conflict "You have already applied to this project.")
        | none =>
          .ok ({ id := newId, applicantId := applicant.id, projectId := pid,
                 status := ApplicationStatus.PENDING, roleAppliedFor := dto.roleAppliedFor,
                 createdAt := now, updatedAt := now },
               { db with applications := db.applications ++
                  [{ id := newId, applicantId := applicant.id, projectId := pid,
                     status := ApplicationStatus.PENDING, roleAppliedFor := dto.roleAppliedFor,
                     createdAt := now, updatedAt := now }] })) := by
    unfold applicationCreate projectFindOne
    rw [hproj]
    rfl
  refine ⟨?_, ?_, ?_, ?_, rfl⟩
  · intro hmem
    have hcond : (project.ownerId == applicant.id ||
        (projectMemberships db pid).any (fun m => m.userId == applicant.id)) = true := by
      rcases hmem with howner | ⟨mb, hmb, hmbu⟩
      · simp [howner]
      · rw [Bool.or_eq_true]
        exact Or.inr (List.any_eq_true.mpr ⟨mb, hmb, by simp [hmbu]⟩)
    exact ⟨_, by rw [hbody, if_pos hcond]⟩
  · intro howner hmems hex
    obtain ⟨a0, ha0, ha0p, ha0a⟩ := hex
    have hcond : ¬((project.ownerId == applicant.id ||
        (projectMemberships db pid).any (fun m => m.userId == applicant.id)) = true) := by
      simp only [Bool.or_eq_true, not_or, beq_iff_eq, List.any_eq_true, not_exists]
      constructor
      · exact fun hc => howner hc
      · intro mb
        simp only [not_and, beq_iff_eq]
        exact fun hmb => hmems mb hmb
    have hsome : (db.applications.find?
        (fun a => a.projectId == pid && a.applicantId == applicant.id)).isSome :=
      List.find?_isSome.mpr ⟨a0, ha0, by simp [ha0p, ha0a]⟩
    cases hfind : db.applications.find?
        (fun a => a.projectId == pid && a.applicantId == applicant.id) with
    | none => rw [hfind] at hsome; exact absurd hsome (by simp)
    | some a1 => exact ⟨_, by rw [hbody, if_neg hcond, hfind]⟩
  · intro howner hmems hnone
    have hfindnone : db.applications.find?
        (fun a => a.projectId == pid && a.applicantId == applicant.id) = none := by
      rw [List.find?_eq_none]
      intro a0 ha0
      simp only [Bool.and_eq_true, beq_iff_eq, not_and]
      intro h1 h2
      exact hnone a0 ha0 ⟨h1, h2⟩
    have hok : applicationCreate db pid applicant dto newId now =
        .ok ({ id := newId, applicantId := applicant.id, projectId := pid,
               status := ApplicationStatus.PENDING, roleAppliedFor := dto.roleAppliedFor,
               createdAt := now, updatedAt := now },
             { db with applications := db.applications ++
                [{ id := newId, applicantId := applicant.id, projectId := pid,
                   status := ApplicationStatus.PENDING, roleAppliedFor := dto.roleAppliedFor,
                   createdAt := now, updatedAt := now }] }) := by
      have hcond : ¬((project.ownerId == applicant.id ||
          (projectMemberships db pid).any (fun m => m.userId == applicant.id)) = true) := by
        simp only [Bool.or_eq_true, not_or, beq_iff_eq, List.any_eq_true, not_exists]
        constructor
        · exact fun hc => howner hc
        · intro mb
          simp only [not_and, beq_iff_eq]
          exact fun hmb => hmems mb hmb
      rw [hbody, if_neg hcond, hfindnone]
    exact ⟨_, _, hok, rfl, rfl, rfl, rfl⟩
  · intro huniq app db' h
    rw [hbody] at h
    by_cases hc : (project.ownerId == applicant.id ||
        (projectMemberships db pid).any (fun m => m.userId == applicant.id)) = true
    · rw [if_pos hc] at h
      exact absurd h (by simp)
    · rw [if_neg hc] at h
      cases hfind : db.applications.find?
          (fun a => a.projectId == pid && a.applicantId == applicant.id) with
      | some a1 =>
        rw [hfind] at h
        exact absurd h (by simp)
      | none =>
        rw [hfind] at h
        simp only [Except.ok.injEq, Prod.mk.injEq] at h
        rw [← h.2]
        unfold applicationsUnique at huniq ⊢
        rw [List.pairwise_append]
        refine ⟨huniq, by simp, ?_⟩
        intro a ha b hbmem
        have hnone := List.find?_eq_none.mp hfind a ha
        simp only [List.mem_singleton] at hbmem
        subst hbmem
        intro hcontra
        apply hnone
        simp only [Bool.and_eq_true, beq_iff_eq]
        exact ⟨hcontra.2, hcontra.1⟩

/-- Witness for C8: on `sampleDB`, the owner `u1` applying to `p1` is a
`BadRequestException`, and the outsider `u2` applying succeeds with a
`PENDING` application appended. -/
theorem application_create_once_and_outsider_only_witness :
    (∃ msg, applicationCreate sampleDB "p1" sampleU1 { roleAppliedFor := none } "a1" 4 =
      .error (.badRequest msg)) ∧
    (∃ app db', applicationCreate sampleDB "p1" sampleU2 { roleAppliedFor := none } "a1" 4 =
      .ok (app, db') ∧ app.status = ApplicationStatus.PENDING ∧
      db'.applications = sampleDB.applications ++ [app]) := by
  have h1 := application_create_once_and_outsider_only sampleDB "p1" sampleU1
    { roleAppliedFor := none } "a1" 4 sampleP1 rfl
  have h2 := application_create_once_and_outsider_only sampleDB "p1" sampleU2
    { roleAppliedFor := none } "a1" 4 sampleP1 rfl
  refine ⟨h1.1 (Or.inl (by decide)), ?_⟩
  obtain ⟨app, db', hok, hst, _, _, happ⟩ :=
    h2.2.2.1 (by decide) (by decide) (by decide)
  exact ⟨app, db', hok, hst, happ⟩

/-- C9: an application is decided at most once —
`ApplicationService.updateStatus` raises `BadRequestException` and leaves the
state unchanged whenever the application's status is not `PENDING` (so an
accepted or declined application never changes again), and accepting a
`PENDING` application whose applicant is not yet a member creates a
membership with role `MEMBER` for the applicant on that project. -/
theorem application_decided_at_most_once
    (db : DB) (appId : String) (dto : UpdateApplicationStatusDto)
    (uid newMbId : String) (now : Nat)
    (application : Application) (project : Project)
    (hfind : applicationFindOne db appId uid = .ok (application, project))
    (howner : project.ownerId = uid) :
    (application.status ≠ ApplicationStatus.PENDING →
      (∃ msg, updateStatus db appId dto uid newMbId now = .error (.badRequest msg)) ∧
      resultState db (updateStatus db appId dto uid newMbId now) = db) ∧
    (application.status = ApplicationStatus.PENDING →
      dto.status = ApplicationStatus.ACCEPTED →
      (∀ mb ∈ db.memberships,
        ¬(mb.projectId = application.projectId ∧ mb.userId = application.applicantId)) →
      ∃ app' db', updateStatus db appId dto uid newMbId now = .ok (app', db') ∧
        app'.status = ApplicationStatus.ACCEPTED ∧
        ∃ mb ∈ db'.memberships, mb.projectId = application.projectId ∧
          mb.userId = application.applicantId ∧ mb.role = ProjectRole.MEMBER) := by
  have hpermc : ¬((project.ownerId != uid) = true) := by
    simp [howner]
  constructor
  · intro hne
    have hpendc : (application.status != ApplicationStatus.PENDING) = true :=
      bne_iff_ne.mpr hne
    have herr : updateStatus db appId dto uid newMbId now =
        .error (.badRequest ("Application has already been " ++
          (application.status.value.toLower) ++ ".")) := by
      unfold updateStatus
      rw [hfind]
      simp only [Bind.bind, Except.bind]
      rw [if_neg hpermc, if_pos hpendc]
    refine ⟨⟨_, herr⟩, ?_⟩
    rw [herr]
    rfl
  · intro hpend hacc hmems
    have hpendc : ¬((application.status != ApplicationStatus.PENDING) = true) := by
      simp [hpend]
    have hfindnone : db.memberships.find? (fun m =>
        m.projectId == application.projectId && m.userId == application.applicantId) = none := by
      rw [List.find?_eq_none]
      intro mb hmb
      simp only [Bool.and_eq_true, beq_iff_eq, not_and]
      intro h1 h2
      exact hmems mb hmb ⟨h1, h2⟩
    have hok : updateStatus db appId dto uid newMbId now =
        .ok ({ application with status := ApplicationStatus.ACCEPTED, updatedAt := now },
          { db with
            memberships := db.memberships ++
              [{ id := newMbId, userId := application.applicantId,
                 projectId := application.projectId, role := ProjectRole.MEMBER,
                 joinedAt := now }],
            applications := db.applications.map (fun a =>
              if a.id == application.id then
                { application with status := ApplicationStatus.ACCEPTED, updatedAt := now }
              else a) }) := by
      unfold updateStatus
      rw [hfind]
      simp only [Bind.bind, Except.bind]
      rw [if_neg hpermc, if_neg hpendc, hacc]
      simp only [beq_self_eq_true, if_pos, hfindnone]
    refine ⟨_, _, hok, rfl, ?_⟩
    refine ⟨{ id := newMbId, userId := application.applicantId, projectId := application.projectId, role := ProjectRole.MEMBER, joinedAt := now }, ?_, rfl, rfl, rfl⟩
    simp

/-- Witness for C9: on concrete data, re-deciding the declined application is
a `BadRequestException`, and accepting the pending one succeeds and creates a
`MEMBER` membership for the applicant `u2` on `p1`. -/
theorem application_decided_at_most_once_witness :
    (∃ msg, updateStatus sampleDBAppDecided "a1" { status := ApplicationStatus.ACCEPTED }
      "u1" "mbnew" 9 = .error (.badRequest msg)) ∧
    (∃ app' db', updateStatus sampleDBAppPending "a1" { status := ApplicationStatus.ACCEPTED }
      "u1" "mbnew" 9 = .ok (app', db') ∧
      app'.status = ApplicationStatus.ACCEPTED ∧
      ∃ mb ∈ db'.memberships, mb.projectId = "p1" ∧ mb.userId = "u2" ∧
        mb.role = ProjectRole.MEMBER) := by
  have h1 := application_decided_at_most_once sampleDBAppDecided "a1"
    { status := ApplicationStatus.ACCEPTED } "u1" "mbnew" 9 sampleDecidedApp sampleP1 rfl rfl
  have h2 := application_decided_at_most_once sampleDBAppPending "a1"
    { status := ApplicationStatus.ACCEPTED } "u1" "mbnew" 9 samplePendingApp sampleP1 rfl rfl
  refine ⟨(h1.1 (by decide)).1, ?_⟩
  obtain ⟨app', db', hok, hst, mb, hmb, hp, hu, hr⟩ := h2.2 rfl rfl (by decide)
  exact ⟨app', db', hok, hst, mb, hmb, hp, hu, hr⟩

/-- C3: only-owner protection on role change — when the project owner's
`OWNER` membership is the project's only `OWNER` membership,
`updateMemberRole` with a new role other than `OWNER` raises
`BadRequestException` and leaves the state (hence the membership's role)
unchanged; when another `OWNER` membership exists, the role change succeeds
and updates exactly that membership row. -/
theorem only_owner_role_change_protected
    (db : DB) (pid memberUserId uid : String) (dto : UpdateMemberRoleDto)
    (project : Project) (membership : ProjectMembership)
    (hproj : db.projects.find? (fun p => p.id == pid) = some project)
    (howner : project.ownerId = uid)
    (hfind : db.memberships.find?
      (fun m => m.projectId == pid && m.userId == memberUserId) = some membership)
    (hmowner : membership.userId = project.ownerId)
    (hrole : membership.role = ProjectRole.OWNER)
    (hnew : dto.role ≠ ProjectRole.OWNER) :
    ((∀ mb ∈ projectMemberships db pid,
        mb.role = ProjectRole.OWNER → mb.userId = membership.userId) →
      (∃ msg, updateMemberRole db pid memberUserId dto uid = .error (.badRequest msg)) ∧
      resultState db (updateMemberRole db pid memberUserId dto uid) = db) ∧
    ((∃ mb ∈ projectMemberships db pid,
        mb.role = ProjectRole.OWNER ∧ mb.userId ≠ membership.userId) →
      ∃ mb' db', updateMemberRole db pid memberUserId dto uid = .ok (mb', db') ∧
        mb'.role = dto.role ∧ mb'.id = membership.id ∧
        db'.memberships = db.memberships.map (fun m =>
          if m.id == membership.id then { membership with role := dto.role } else m)) := by
  have hpermc : ¬((project.ownerId != uid) = true) := by
    simp [howner]
  have hbody : updateMemberRole db pid memberUserId dto uid =
      (if (membership.userId == project.ownerId && membership.role == ProjectRole.OWNER &&
          dto.role != ProjectRole.OWNER &&
          (((projectMemberships db pid).filter (fun m =>
            m.role == ProjectRole.OWNER && m.userId != membership.userId)).length == 0)) = true then
        .error (.badRequest "Cannot change the role of the only owner.")
      else if (dto.role == ProjectRole.OWNER && membership.role != ProjectRole.OWNER) = true then
        .error (.badRequest "Cannot assign OWNER role to another member.")
      else
        .ok ({ membership with role := dto.role },
          { db with memberships := db.memberships.map (fun m =>
              if m.id == membership.id then { membership with role := dto.role } else m) })) := by
    unfold updateMemberRole projectFindOne
    rw [hproj]
    simp only [Bind.bind, Except.bind]
    rw [if_neg hpermc, hfind]
  constructor
  · intro hall
    have hlen : (projectMemberships db pid).filter (fun m =>
        m.role == ProjectRole.OWNER && m.userId != membership.userId) = [] := by
      rw [List.filter_eq_nil_iff]
      intro mb hmb
      simp only [Bool.and_eq_true, beq_iff_eq, bne_iff_ne, not_and]
      intro hr hne
      exact hne (hall mb hmb hr)
    have hcond : (membership.userId == project.ownerId &&
        membership.role == ProjectRole.OWNER && dto.role != ProjectRole.OWNER &&
        (((projectMemberships db pid).filter (fun m =>
          m.role == ProjectRole.OWNER && m.userId != membership.userId)).length == 0)) = true := by
      simp only [Bool.and_eq_true, beq_iff_eq, bne_iff_ne]
      exact ⟨⟨⟨hmowner, hrole⟩, hnew⟩, by simp [hlen]⟩
    have herr : updateMemberRole db pid memberUserId dto uid =
        .error (.badRequest "Cannot change the role of the only owner.") := by
      rw [hbody, if_pos hcond]
    refine ⟨⟨_, herr⟩, ?_⟩
    rw [herr]
    rfl
  · rintro ⟨mb, hmb, hmbrole, hmbneq⟩
    have hmemfil : mb ∈ (projectMemberships db pid).filter (fun m =>
        m.role == ProjectRole.OWNER && m.userId != membership.userId) := by
      refine List.mem_filter.mpr ⟨hmb, ?_⟩
      simp only [Bool.and_eq_true, beq_iff_eq, bne_iff_ne]
      exact ⟨hmbrole, hmbneq⟩
    have hlenpos : ((projectMemberships db pid).filter (fun m =>
        m.role == ProjectRole.OWNER && m.userId != membership.userId)).length ≠ 0 := by
      intro hz
      rw [List.length_eq_zero] at hz
      rw [hz] at hmemfil
      exact absurd hmemfil (List.not_mem_nil mb)
    have hcond1 : ¬((membership.userId == project.ownerId &&
        membership.role == ProjectRole.OWNER && dto.role != ProjectRole.OWNER &&
        (((projectMemberships db pid).filter (fun m =>
          m.role == ProjectRole.OWNER && m.userId != membership.userId)).length == 0)) = true) := by
      simp only [Bool.and_eq_true, beq_iff_eq, not_and]
      intro _ hz
      exact hlenpos hz
    have hcond2 : ¬((dto.role == ProjectRole.OWNER &&
        membership.role != ProjectRole.OWNER) = true) := by
      simp only [Bool.and_eq_true, beq_iff_eq, not_and]
      intro hc
      exact absurd hc hnew
    have hok : updateMemberRole db pid memberUserId dto uid =
        .ok ({ membership with role := dto.role },
          { db with memberships := db.memberships.map (fun m =>
              if m.id == membership.id then { membership with role := dto.role } else m) }) := by
      rw [hbody, if_neg hcond1, if_neg hcond2]
    exact ⟨_, _, hok, rfl, rfl, rfl⟩

/-- Witness for C3: on `sampleDB` (single owner `u1`), demoting `u1` is a
`BadRequestException`; on `sampleDBTwoOwners` (owners `u1` and `u2`),
demoting `u1` to `MEMBER` succeeds. -/
theorem only_owner_role_change_protected_witness :
    (∃ msg, updateMemberRole sampleDB "p1" "u1" { role := ProjectRole.MEMBER } "u1" =
      .error (.badRequest msg)) ∧
    (∃ mb' db', updateMemberRole sampleDBTwoOwners "p1" "u1" { role := ProjectRole.MEMBER } "u1" =
      .ok (mb', db') ∧ mb'.role = ProjectRole.MEMBER) := by
  have h1 := only_owner_role_change_protected sampleDB "p1" "u1" "u1"
    { role := ProjectRole.MEMBER }
    sampleP1 { id := "mb1", userId := "u1", projectId := "p1", role := ProjectRole.OWNER, joinedAt := 0 }
    rfl rfl rfl rfl rfl (by decide)
  have h2 := only_owner_role_change_protected sampleDBTwoOwners "p1" "u1" "u1"
    { role := ProjectRole.MEMBER }
    sampleP1 { id := "mb1", userId := "u1", projectId := "p1", role := ProjectRole.OWNER, joinedAt := 0 }
    rfl rfl rfl rfl rfl (by decide)
  refine ⟨(h1.1 (by decide)).1, ?_⟩
  obtain ⟨mb', db', hok, hrole, _, _⟩ := h2.2 ⟨sampleMb2Owner, by decide, by decide, by decide⟩
  exact ⟨mb', db', hok, hrole⟩

/-- C4: only-owner protection on removal — `removeMember` raises
`BadRequestException` and deletes nothing both when the member being removed
is the requesting user and holds the project's only `OWNER` membership, and
when the requesting owner removes themselves while being the project's only
member; in both cases the state is unchanged. -/
theorem only_owner_removal_protected
    (db : DB) (pid memberUserId uid : String)
    (project : Project) (membership : ProjectMembership)
    (hproj : db.projects.find? (fun p => p.id == pid) = some project)
    (hfind : db.memberships.find?
      (fun m => m.projectId == pid && m.userId == memberUserId) = some membership)
    (hself : memberUserId = uid) :
    (membership.role = ProjectRole.OWNER →
      (∀ mb ∈ projectMemberships db pid,
        mb.role = ProjectRole.OWNER → mb.userId = memberUserId) →
      (∃ msg, removeMember db pid memberUserId uid = .error (.badRequest msg)) ∧
      resultState db (removeMember db pid memberUserId uid) = db) ∧
    (project.ownerId = uid →
      (projectMemberships db pid).length = 1 →
      (∃ msg, removeMember db pid memberUserId uid = .error (.badRequest msg)) ∧
      resultState db (removeMember db pid memberUserId uid) = db) := by
  have hpermc : ¬(((!(project.ownerId == uid)) && (!(memberUserId == uid))) = true) := by
    simp [hself]
  have hbody : removeMember db pid memberUserId uid =
      (if ((memberUserId == uid) && membership.role == ProjectRole.OWNER &&
          (((projectMemberships db pid).filter (fun m =>
            m.role == ProjectRole.OWNER && m.userId != memberUserId)).length == 0)) = true then
        .error (.badRequest
          "Cannot remove the only owner from the project. Delete the project instead or assign a new owner.")
      else if ((project.ownerId == uid) && (memberUserId == uid) &&
          ((projectMemberships db pid).length == 1)) = true then
        .error (.badRequest "Cannot remove the only member (owner). Delete the project instead.")
      else
        .ok ((), { db with memberships := db.memberships.filter (fun m => m.id != membership.id) })) := by
    unfold removeMember projectFindOne
    rw [hproj]
    simp only [Bind.bind, Except.bind]
    rw [if_neg hpermc, hfind]
  constructor
  · intro hrole hall
    have hlen : (projectMemberships db pid).filter (fun m =>
        m.role == ProjectRole.OWNER && m.userId != memberUserId) = [] := by
      rw [List.filter_eq_nil_iff]
      intro mb hmb
      simp only [Bool.and_eq_true, beq_iff_eq, bne_iff_ne, not_and]
      intro hr hne
      exact hne (hall mb hmb hr)
    have hcond : ((memberUserId == uid) && membership.role == ProjectRole.OWNER &&
        (((projectMemberships db pid).filter (fun m =>
          m.role == ProjectRole.OWNER && m.userId != memberUserId)).length == 0)) = true := by
      simp only [Bool.and_eq_true, beq_iff_eq]
      exact ⟨⟨hself, hrole⟩, by simp [hlen]⟩
    have herr : removeMember db pid memberUserId uid = .error (.badRequest
        "Cannot remove the only owner from the project. Delete the project instead or assign a new owner.") := by
      rw [hbody, if_pos hcond]
    refine ⟨⟨_, herr⟩, ?_⟩
    rw [herr]
    rfl
  · intro howner hone
    by_cases hc1 : ((memberUserId == uid) && membership.role == ProjectRole.OWNER &&
        (((projectMemberships db pid).filter (fun m =>
          m.role == ProjectRole.OWNER && m.userId != memberUserId)).length == 0)) = true
    · have herr : removeMember db pid memberUserId uid = .error (.badRequest
          "Cannot remove the only owner from the project. Delete the project instead or assign a new owner.") := by
        rw [hbody, if_pos hc1]
      refine ⟨⟨_, herr⟩, ?_⟩
      rw [herr]
      rfl
    · have hcond2 : ((project.ownerId == uid) && (memberUserId == uid) &&
          ((projectMemberships db pid).length == 1)) = true := by
        simp only [Bool.and_eq_true, beq_iff_eq]
        exact ⟨⟨howner, hself⟩, by simp [hone]⟩
      have herr : removeMember db pid memberUserId uid = .error (.badRequest
          "Cannot remove the only member (owner). Delete the project instead.") := by
        rw [hbody, if_neg hc1, if_pos hcond2]
      refine ⟨⟨_, herr⟩, ?_⟩
      rw [herr]
      rfl

/-- Witness for C4: on `sampleDB`, owner `u1` removing themselves (the only
owner and only member of `p1`) is a `BadRequestException` by both
protections, and the state is unchanged. -/
theorem only_owner_removal_protected_witness :
    (∃ msg, removeMember sampleDB "p1" "u1" "u1" = .error (.badRequest msg)) ∧
    resultState sampleDB (removeMember sampleDB "p1" "u1" "u1") = sampleDB := by
  have h := only_owner_removal_protected sampleDB "p1" "u1" "u1" sampleP1
    { id := "mb1", userId := "u1", projectId := "p1", role := ProjectRole.OWNER, joinedAt := 0 }
    rfl rfl rfl
  exact ⟨(h.1 (by decide) (by decide)).1, (h.2 rfl (by decide)).2⟩

theorem addMember_ok_inv (db : DB) (pid : String) (addDto : AddMemberDto) (uid newId : String)
    (now : Nat) (mb' : ProjectMembership) (db' : DB)
    (h : addMember db pid addDto uid newId now = .ok (mb', db')) :
    db.memberships.find? (fun m => m.projectId == pid && m.userId == addDto.userId) = none ∧
    ¬((addDto.role == ProjectRole.OWNER &&
      (projectMemberships db pid).any (fun m => m.role == ProjectRole.OWNER)) = true) ∧
    mb' = { id := newId, userId := addDto.userId, projectId := pid, role := addDto.role, joinedAt := now } ∧
    db' = { db with memberships := db.memberships ++ [mb'] } := by
  unfold addMember projectFindOne userFindOne at h
  cases hproj : db.projects.find? (fun p => p.id == pid) with
  | none => rw [hproj] at h; exact absurd h (by simp [Bind.bind, Except.bind])
  | some project =>
    rw [hproj] at h
    simp only [Bind.bind, Except.bind] at h
    by_cases hperm : (project.ownerId != uid) = true
    · rw [if_pos hperm] at h
      exact absurd h (by simp)
    · rw [if_neg hperm] at h
      cases huser : db.users.find? (fun u => u.id == addDto.userId) with
      | none => rw [huser] at h; exact absurd h (by simp)
      | some userToAdd =>
        rw [huser] at h
        simp only [Bind.bind, Except.bind] at h
        cases hpair : db.memberships.find?
            (fun m => m.projectId == pid && m.userId == addDto.userId) with
        | some mb0 => rw [hpair] at h; exact absurd h (by simp)
        | none =>
          rw [hpair] at h
          dsimp only [] at h
          by_cases hcond : (addDto.role == ProjectRole.OWNER &&
              (projectMemberships db pid).any (fun m => m.role == ProjectRole.OWNER)) = true
          · rw [if_pos hcond] at h
            exact absurd h (by simp)
          · rw [if_neg hcond] at h
            simp only [Except.ok.injEq, Prod.mk.injEq] at h
            exact ⟨rfl, hcond, h.1.symm, by rw [← h.2, ← h.1]⟩

theorem updateMemberRole_ok_inv (db : DB) (pid memberUserId : String)
    (dto : UpdateMemberRoleDto) (uid : String) (mb' : ProjectMembership) (db' : DB)
    (h : updateMemberRole db pid memberUserId dto uid = .ok (mb', db')) :
    ∃ membership, db.memberships.find?
        (fun m => m.projectId == pid && m.userId == memberUserId) = some membership ∧
      ¬((dto.role == ProjectRole.OWNER && membership.role != ProjectRole.OWNER) = true) ∧
      mb' = { membership with role := dto.role } ∧
      db' = { db with memberships := db.memberships.map (fun m =>
        if m.id == membership.id then { membership with role := dto.role } else m) } := by
  unfold updateMemberRole projectFindOne at h
  cases hproj : db.projects.find? (fun p => p.id == pid) with
  | none => rw [hproj] at h; exact absurd h (by simp [Bind.bind, Except.bind])
  | some project =>
    rw [hproj] at h
    simp only [Bind.bind, Except.bind] at h
    by_cases hperm : (project.ownerId != uid) = true
    · rw [if_pos hperm] at h
      exact absurd h (by simp)
    · rw [if_neg hperm] at h
      cases hpair : db.memberships.find?
          (fun m => m.projectId == pid && m.userId == memberUserId) with
      | none => rw [hpair] at h; exact absurd h (by simp)
      | some membership =>
        rw [hpair] at h
        dsimp only [] at h
        by_cases hc1 : (membership.userId == project.ownerId &&
            membership.role == ProjectRole.OWNER && dto.role != ProjectRole.OWNER &&
            (((projectMemberships db pid).filter (fun m =>
              m.role == ProjectRole.OWNER && m.userId != membership.userId)).length == 0)) = true
        · rw [if_pos hc1] at h
          exact absurd h (by simp)
        · rw [if_neg hc1] at h
          by_cases hc2 : (dto.role == ProjectRole.OWNER &&
              membership.role != ProjectRole.OWNER) = true
          · rw [if_pos hc2] at h
            exact absurd h (by simp)
          · rw [if_neg hc2] at h
            simp only [Except.ok.injEq, Prod.mk.injEq] at h
            exact ⟨membership, rfl, hc2, h.1.symm, h.2.symm⟩

theorem removeMember_ok_inv (db : DB) (pid memberUserId uid : String) (u : Unit) (db' : DB)
    (h : removeMember db pid memberUserId uid = .ok (u, db')) :
    ∃ membership : ProjectMembership, db' = { db with memberships := db.memberships.filter (fun m => m.id != membership.id) } := by
  unfold removeMember projectFindOne at h
  cases hproj : db.projects.find? (fun p => p.id == pid) with
  | none => rw [hproj] at h; exact absurd h (by simp [Bind.bind, Except.bind])
  | some project =>
    rw [hproj] at h
    simp only [Bind.bind, Except.bind] at h
    by_cases hperm : ((!(project.ownerId == uid)) && (!(memberUserId == uid))) = true
    · rw [if_pos hperm] at h
      exact absurd h (by simp)
    · rw [if_neg hperm] at h
      cases hpair : db.memberships.find?
          (fun m => m.projectId == pid && m.userId == memberUserId) with
      | none => rw [hpair] at h; exact absurd h (by simp)
      | some membership =>
        rw [hpair] at h
        dsimp only [] at h
        by_cases hc1 : ((memberUserId == uid) && membership.role == ProjectRole.OWNER &&
            (((projectMemberships db pid).filter (fun m =>
              m.role == ProjectRole.OWNER && m.userId != memberUserId)).length == 0)) = true
        · rw [if_pos hc1] at h
          exact absurd h (by simp)
        · rw [if_neg hc1] at h
          by_cases hc2 : ((project.ownerId == uid) && (memberUserId == uid) &&
              ((projectMemberships db pid).length == 1)) = true
          · rw [if_pos hc2] at h
            exact absurd h (by simp)
          · rw [if_neg hc2] at h
            simp only [Except.ok.injEq, Prod.mk.injEq] at h
            exact ⟨membership, h.2.symm⟩

theorem createProject_ok_inv (db : DB) (createDto : CreateProjectDto) (owner : User)
    (newPid newMbId : String) (now : Nat) (p : Project) (db' : DB)
    (h : createProject db createDto owner newPid newMbId now = .ok (p, db')) :
    ∃ ms, db' = { db with
      projects := db.projects ++ [{ id := newPid, ownerId := owner.id, title := createDto.title }],
      memberships := db.memberships ++
        [{ id := newMbId, userId := owner.id, projectId := newPid, role := ProjectRole.OWNER, joinedAt := now }],
      milestones := db.milestones ++ ms } := by
  unfold createProject at h
  cases hdto : createDto.milestones with
  | none =>
    rw [hdto] at h
    dsimp only [] at h
    simp only [Bind.bind, Except.bind, Except.ok.injEq, Prod.mk.injEq] at h
    exact ⟨[], h.2.symm⟩
  | some inputs =>
    rw [hdto] at h
    dsimp only [] at h
    cases hms : buildMilestones newPid now inputs 0 with
    | error e =>
      rw [hms] at h
      exact absurd h (by simp [Bind.bind, Except.bind])
    | ok ms =>
      rw [hms] at h
      simp only [Bind.bind, Except.bind, Except.ok.injEq, Prod.mk.injEq] at h
      exact ⟨ms, h.2.symm⟩

theorem ownerCount_append (l1 l2 : List ProjectMembership) (pid : String) :
    ownerCount (l1 ++ l2) pid = ownerCount l1 pid + ownerCount l2 pid := by
  unfold ownerCount
  rw [List.filter_append, List.length_append]

theorem ownerCount_map_le (f : ProjectMembership → ProjectMembership)
    (l : List ProjectMembership) (pid : String)
    (h : ∀ x ∈ l, ((f x).projectId == pid && (f x).role == ProjectRole.OWNER) = true →
      (x.projectId == pid && x.role == ProjectRole.OWNER) = true) :
    ownerCount (l.map f) pid ≤ ownerCount l pid := by
  unfold ownerCount
  induction l with
  | nil => simp
  | cons a t ih =>
    simp only [List.map_cons, List.filter_cons]
    have ht := ih (fun x hx => h x (List.mem_cons_of_mem a hx))
    by_cases ha : ((f a).projectId == pid && (f a).role == ProjectRole.OWNER) = true
    · rw [if_pos ha, if_pos (h a (List.mem_cons_self a t) ha)]
      simpa using ht
    · rw [if_neg ha]
      by_cases ha' : (a.projectId == pid && a.role == ProjectRole.OWNER) = true
      · rw [if_pos ha']
        simp only [List.length_cons]
        omega
      · rw [if_neg ha']
        exact ht

theorem ownerCount_singleton_le (mb : ProjectMembership) (pid : String) :
    ownerCount [mb] pid ≤ 1 := by
  unfold ownerCount
  rw [List.filter_cons]
  by_cases h : (mb.projectId == pid && mb.role == ProjectRole.OWNER) = true
  · rw [if_pos h]
    simp
  · rw [if_neg h]
    simp

theorem ownerCount_singleton_pid_ne (mb : ProjectMembership) (pid : String)
    (h : mb.projectId ≠ pid) : ownerCount [mb] pid = 0 := by
  unfold ownerCount
  rw [List.filter_cons, if_neg (by simp [h])]
  rfl

theorem ownerCount_singleton_role_ne (mb : ProjectMembership) (pid : String)
    (h : mb.role ≠ ProjectRole.OWNER) : ownerCount [mb] pid = 0 := by
  unfold ownerCount
  rw [List.filter_cons, if_neg (by simp [h])]
  rfl

theorem ownerCount_filter_le (q : ProjectMembership → Bool)
    (l : List ProjectMembership) (pid : String) :
    ownerCount (l.filter q) pid ≤ ownerCount l pid := by
  unfold ownerCount
  exact List.Sublist.length_le (List.Sublist.filter _ (List.filter_sublist l))

/-- C5: unique membership per user and project — `addMember` raises
`BadRequestException` and changes nothing when a membership for the
`(user, project)` pair already exists, a successful `addMember` preserves
at-most-one-membership-per-pair, and the `(userId, projectId)` unique index
backs the same constraint. -/
theorem membership_unique_per_user_and_project
    (db : DB) (pid : String) (addDto : AddMemberDto) (uid newId : String) (now : Nat)
    (project : Project) (userToAdd : User)
    (hproj : db.projects.find? (fun p => p.id == pid) = some project)
    (howner : project.ownerId = uid)
    (huser : db.users.find? (fun u => u.id == addDto.userId) = some userToAdd) :
    ((∃ mb ∈ db.memberships, mb.projectId = pid ∧ mb.userId = addDto.userId) →
      (∃ msg, addMember db pid addDto uid newId now = .error (.badRequest msg)) ∧
      resultState db (addMember db pid addDto uid newId now) = db) ∧
    (membershipsUnique db.memberships →
      ∀ mb' db', addMember db pid addDto uid newId now = .ok (mb', db') →
        membershipsUnique db'.memberships) ∧
    projectMembershipUniqueIndex = ["userId", "projectId"] := by
  have hpermc : ¬((project.ownerId != uid) = true) := by
    simp [howner]
  refine ⟨?_, ?_, rfl⟩
  · rintro ⟨mb0, hmb0, hp0, hu0⟩
    have hsome : (db.memberships.find?
        (fun m => m.projectId == pid && m.userId == addDto.userId)).isSome :=
      List.find?_isSome.mpr ⟨mb0, hmb0, by simp [hp0, hu0]⟩
    cases hpair : db.memberships.find?
        (fun m => m.projectId == pid && m.userId == addDto.userId) with
    | none => rw [hpair] at hsome; exact absurd hsome (by simp)
    | some mbx =>
      have herr : addMember db pid addDto uid newId now =
          .error (.badRequest ("User " ++ userToAdd.firstName ++
            " is already a member of this project.")) := by
        unfold addMember projectFindOne userFindOne
        rw [hproj]
        simp only [Bind.bind, Except.bind]
        rw [if_neg hpermc, huser]
        simp only [Bind.bind, Except.bind]
        rw [hpair]
      refine ⟨⟨_, herr⟩, ?_⟩
      rw [herr]
      rfl
  · intro huniq mb' db' h
    obtain ⟨hpairnone, hcond, hmb', hdb'⟩ := addMember_ok_inv db pid addDto uid newId now mb' db' h
    rw [hdb']
    unfold membershipsUnique at huniq ⊢
    rw [List.pairwise_append]
    refine ⟨huniq, by simp, ?_⟩
    intro a ha b hbmem
    have hnone := List.find?_eq_none.mp hpairnone a ha
    simp only [List.mem_singleton] at hbmem
    subst hbmem
    rw [hmb']
    intro hcontra
    apply hnone
    simp only [Bool.and_eq_true, beq_iff_eq]
    exact ⟨hcontra.2, hcontra.1⟩

/-- Witness for C5: on `sampleDBTwoMembers` adding the already-member `u2`
again is a `BadRequestException`; on `sampleDB` adding `u2` succeeds and the
pair-uniqueness of the membership table is preserved. -/
theorem membership_unique_per_user_and_project_witness :
    (∃ msg, addMember sampleDBTwoMembers "p1" { userId := "u2", role := ProjectRole.MEMBER }
      "u1" "mbnew" 7 = .error (.badRequest msg)) ∧
    (addMember sampleDB "p1" { userId := "u2", role := ProjectRole.MEMBER } "u1" "mb2" 1 =
      .ok (sampleMb2Member, sampleDBTwoMembers) ∧
      membershipsUnique sampleDBTwoMembers.memberships) := by
  have h1 := membership_unique_per_user_and_project sampleDBTwoMembers "p1"
    { userId := "u2", role := ProjectRole.MEMBER } "u1" "mbnew" 7 sampleP1 sampleU2 rfl rfl rfl
  have h2 := membership_unique_per_user_and_project sampleDB "p1"
    { userId := "u2", role := ProjectRole.MEMBER } "u1" "mb2" 1 sampleP1 sampleU2 rfl rfl rfl
  have hok : addMember sampleDB "p1" { userId := "u2", role := ProjectRole.MEMBER } "u1" "mb2" 1 =
      .ok (sampleMb2Member, sampleDBTwoMembers) := by rfl
  refine ⟨(h1.1 ⟨sampleMb2Member, by decide, by decide, by decide⟩).1, hok, ?_⟩
  exact h2.2.1 (by unfold membershipsUnique; decide) sampleMb2Member sampleDBTwoMembers hok

/-- C2: every project has at most one `OWNER` membership —
`createProject` creates exactly one `OWNER` membership (for the creating
user), `addMember` raises `BadRequestException` when asked to add an `OWNER`
while one exists, `updateMemberRole` raises `BadRequestException` when asked
to promote a non-`OWNER` member to `OWNER`, and every membership-modifying
operation preserves the one-owner-per-project invariant (`updateMemberRole`
under the primary-key uniqueness of membership row ids). -/
theorem one_owner_per_project (db : DB) :
    (∀ createDto owner newPid newMbId now p db',
      (∀ mb ∈ db.memberships, mb.projectId ≠ newPid) →
      createProject db createDto owner newPid newMbId now = .ok (p, db') →
      ownerCount db'.memberships newPid = 1 ∧
      (∃ mb ∈ db'.memberships, mb.projectId = newPid ∧ mb.userId = owner.id ∧
        mb.role = ProjectRole.OWNER) ∧
      (oneOwnerInvariant db → oneOwnerInvariant db')) ∧
    (∀ pid addDto uid newId now project userToAdd,
      db.projects.find? (fun p => p.id == pid) = some project →
      project.ownerId = uid →
      db.users.find? (fun u => u.id == addDto.userId) = some userToAdd →
      addDto.role = ProjectRole.OWNER →
      (∃ mb ∈ projectMemberships db pid, mb.role = ProjectRole.OWNER) →
      ∃ msg, addMember db pid addDto uid newId now = .error (.badRequest msg)) ∧
    (∀ pid memberUserId uid dto project membership,
      db.projects.find? (fun p => p.id == pid) = some project →
      project.ownerId = uid →
      db.memberships.find?
        (fun m => m.projectId == pid && m.userId == memberUserId) = some membership →
      membership.role ≠ ProjectRole.OWNER →
      dto.role = ProjectRole.OWNER →
      ∃ msg, updateMemberRole db pid memberUserId dto uid = .error (.badRequest msg)) ∧
    (oneOwnerInvariant db →
      (∀ pid addDto uid newId now mb' db',
        addMember db pid addDto uid newId now = .ok (mb', db') → oneOwnerInvariant db') ∧
      ((db.memberships.map ProjectMembership.id).Nodup →
        ∀ pid memberUserId dto uid mb' db',
        updateMemberRole db pid memberUserId dto uid = .ok (mb', db') →
        oneOwnerInvariant db') ∧
      (∀ pid memberUserId uid u db',
        removeMember db pid memberUserId uid = .ok (u, db') → oneOwnerInvariant db')) := by
  refine ⟨?_, ?_, ?_, ?_⟩
  · intro createDto owner newPid newMbId now p db' hfresh h
    obtain ⟨ms, hdb'⟩ := createProject_ok_inv db createDto owner newPid newMbId now p db' h
    have hmemb : db'.memberships = db.memberships ++
        [{ id := newMbId, userId := owner.id, projectId := newPid,
           role := ProjectRole.OWNER, joinedAt := now }] := by
      rw [hdb']
    have hzero : ownerCount db.memberships newPid = 0 := by
      unfold ownerCount
      rw [List.length_eq_zero, List.filter_eq_nil_iff]
      intro mb hmb
      simp only [Bool.and_eq_true, beq_iff_eq, not_and]
      intro hp
      exact absurd hp (hfresh mb hmb)
    have hcount1 : ownerCount db'.memberships newPid = 1 := by
      rw [hmemb, ownerCount_append, hzero]
      unfold ownerCount
      simp
    refine ⟨hcount1, ?_, ?_⟩
    · refine ⟨{ id := newMbId, userId := owner.id, projectId := newPid, role := ProjectRole.OWNER, joinedAt := now }, ?_, rfl, rfl, rfl⟩
      rw [hmemb]
      exact List.mem_append_right _ (List.mem_singleton_self _)
    · intro hinv pid'
      by_cases hp : pid' = newPid
      · subst hp
        exact le_of_eq hcount1
      · rw [hmemb, ownerCount_append,
          ownerCount_singleton_pid_ne _ _ (fun hc => hp hc.symm)]
        simpa using hinv pid'
  · intro pid addDto uid newId now project userToAdd hproj howner huser hrole hex
    obtain ⟨mb, hmb, hmbrole⟩ := hex
    have hpermc : ¬((project.ownerId != uid) = true) := by
      simp [howner]
    cases hpair : db.memberships.find?
        (fun m => m.projectId == pid && m.userId == addDto.userId) with
    | some mbx =>
      exact ⟨_, by
        unfold addMember projectFindOne userFindOne
        rw [hproj]
        simp only [Bind.bind, Except.bind]
        rw [if_neg hpermc, huser]
        simp only [Bind.bind, Except.bind]
        rw [hpair]⟩
    | none =>
      have hcond : (addDto.role == ProjectRole.OWNER &&
          (projectMemberships db pid).any (fun m => m.role == ProjectRole.OWNER)) = true := by
        simp only [Bool.and_eq_true, beq_iff_eq, List.any_eq_true]
        exact ⟨hrole, mb, hmb, by simp [hmbrole]⟩
      exact ⟨_, by
        unfold addMember projectFindOne userFindOne
        rw [hproj]
        simp only [Bind.bind, Except.bind]
        rw [if_neg hpermc, huser]
        simp only [Bind.bind, Except.bind]
        rw [hpair]
        dsimp only []
        rw [if_pos hcond]⟩
  · intro pid memberUserId uid dto project membership hproj howner hfind hnotowner hdto
    have hpermc : ¬((project.ownerId != uid) = true) := by
      simp [howner]
    have hc1 : ¬((membership.userId == project.ownerId &&
        membership.role == ProjectRole.OWNER && dto.role != ProjectRole.OWNER &&
        (((projectMemberships db pid).filter (fun m =>
          m.role == ProjectRole.OWNER && m.userId != membership.userId)).length == 0)) = true) := by
      intro hcontra
      simp only [Bool.and_eq_true, beq_iff_eq] at hcontra
      exact hnotowner hcontra.1.1.2
    have hc2 : (dto.role == ProjectRole.OWNER && membership.role != ProjectRole.OWNER) = true := by
      simp only [Bool.and_eq_true, beq_iff_eq, bne_iff_ne]
      exact ⟨hdto, hnotowner⟩
    exact ⟨_, by
      unfold updateMemberRole projectFindOne
      rw [hproj]
      simp only [Bind.bind, Except.bind]
      rw [if_neg hpermc, hfind]
      dsimp only []
      rw [if_neg hc1, if_pos hc2]⟩
  · intro hinv
    refine ⟨?_, ?_, ?_⟩
    · intro pid addDto uid newId now mb' db' h pid'
      obtain ⟨hpairnone, hcond, hmb', hdb'⟩ :=
        addMember_ok_inv db pid addDto uid newId now mb' db' h
      have hmemb : db'.memberships = db.memberships ++ [mb'] := by
        rw [hdb']
      rw [hmemb, ownerCount_append]
      by_cases hrole : addDto.role = ProjectRole.OWNER
      · have hany : ¬((projectMemberships db pid).any
            (fun m => m.role == ProjectRole.OWNER) = true) := by
          intro ha
          exact hcond (by simp [hrole, ha])
        by_cases hp : pid' = pid
        · subst hp
          have hzero : ownerCount db.memberships pid' = 0 := by
            unfold ownerCount
            rw [List.length_eq_zero, List.filter_eq_nil_iff]
            intro mb hmb
            simp only [Bool.and_eq_true, beq_iff_eq, not_and]
            intro hpmb hrolemb
            apply hany
            refine List.any_eq_true.mpr ⟨mb, ?_, by simp [hrolemb]⟩
            exact List.mem_filter.mpr ⟨hmb, by simp [hpmb]⟩
          rw [hzero]
          simpa using ownerCount_singleton_le mb' pid'
        · have hne : mb'.projectId ≠ pid' := by
            rw [hmb']
            exact fun hc => hp hc.symm
          rw [ownerCount_singleton_pid_ne _ _ hne]
          simpa using hinv pid'
      · have hne : mb'.role ≠ ProjectRole.OWNER := by
          rw [hmb']
          exact hrole
        rw [ownerCount_singleton_role_ne _ _ hne]
        simpa using hinv pid'
    · intro hNodup pid memberUserId dto uid mb' db' h pid'
      obtain ⟨membership, hfind, hcond2, hmb', hdb'⟩ :=
        updateMemberRole_ok_inv db pid memberUserId dto uid mb' db' h
      have hmemb : db'.memberships = db.memberships.map (fun m =>
          if m.id == membership.id then { membership with role := dto.role } else m) := by
        rw [hdb']
      rw [hmemb]
      refine le_trans (ownerCount_map_le _ _ _ ?_) (hinv pid')
      intro x hx hpx
      by_cases hid : (x.id == membership.id) = true
      · rw [if_pos hid] at hpx
        have hxm : x = membership :=
          List.inj_on_of_nodup_map hNodup hx (List.mem_of_find?_eq_some hfind)
            (by simpa using hid)
        simp only [Bool.and_eq_true, beq_iff_eq] at hpx
        obtain ⟨hp1, hp2⟩ := hpx
        simp only [Bool.and_eq_true, beq_iff_eq, bne_iff_ne, not_and] at hcond2
        have hrolem : membership.role = ProjectRole.OWNER := by
          by_contra hne
          exact (hcond2 hp2) hne
        subst hxm
        simp only [Bool.and_eq_true, beq_iff_eq]
        exact ⟨hp1, hrolem⟩
      · rw [if_neg hid] at hpx
        exact hpx
    · intro pid memberUserId uid u db' h pid'
      obtain ⟨membership, hdb'⟩ := removeMember_ok_inv db pid memberUserId uid u db' h
      have hmemb : db'.memberships = db.memberships.filter
          (fun m => m.id != membership.id) := by
        rw [hdb']
      rw [hmemb]
      exact le_trans (ownerCount_filter_le _ _ _) (hinv pid')

/-- Witness for C2: creating a project for `u2` on `sampleDB` yields exactly
one `OWNER` membership for `u2` on the new project; adding a second `OWNER`
to `p1` is a `BadRequestException`; promoting the `MEMBER` `u2` to `OWNER` is
a `BadRequestException`. -/
theorem one_owner_per_project_witness :
    (∃ p db', createProject sampleDB { title := "N", milestones := none } sampleU2 "p2" "mb9" 8 =
      .ok (p, db') ∧ ownerCount db'.memberships "p2" = 1) ∧
    (∃ msg, addMember sampleDBTwoMembers "p1" { userId := "u2", role := ProjectRole.OWNER }
      "u1" "mbnew" 7 = .error (.badRequest msg)) ∧
    (∃ msg, updateMemberRole sampleDBTwoMembers "p1" "u2" { role := ProjectRole.OWNER } "u1" =
      .error (.badRequest msg)) := by
  have h := one_owner_per_project sampleDB
  have h2 := one_owner_per_project sampleDBTwoMembers
  refine ⟨?_, ?_, ?_⟩
  · have hok : createProject sampleDB { title := "N", milestones := none } sampleU2 "p2" "mb9" 8 =
        .ok ({ id := "p2", ownerId := "u2", title := "N" },
          { sampleDB with
            projects := sampleDB.projects ++ [{ id := "p2", ownerId := "u2", title := "N" }],
            memberships := sampleDB.memberships ++ [{ id := "mb9", userId := "u2", projectId := "p2", role := ProjectRole.OWNER, joinedAt := 8 }] }) := by
      rfl
    have hc := h.1 { title := "N", milestones := none } sampleU2 "p2" "mb9" 8 _ _
      (by decide) hok
    exact ⟨_, _, hok, hc.1⟩
  · exact h2.2.1 "p1" { userId := "u2", role := ProjectRole.OWNER } "u1" "mbnew" 7
      sampleP1 sampleU2 rfl rfl rfl rfl
      ⟨{ id := "mb1", userId := "u1", projectId := "p1", role := ProjectRole.OWNER, joinedAt := 0 }, by decide, rfl⟩
  · exact h2.2.2.1 "p1" "u2" "u1" { role := ProjectRole.OWNER } sampleP1 sampleMb2Member
      rfl rfl rfl (by decide) rfl

end TeamUp
